import Mathlib

/-!
Verification of the `letterboxd_to_social_feeds.py` pipeline.

This file shallowly embeds the core of the script — the budget summarizer
(lines 122–130), the per-item loop of `build_feed` (lines 92–145), the
entry normalization of the `__main__` block (lines 180–189) and the
driver sequence (lines 192–196) — as executable Lean definitions, and
proves or refutes the specification's claims about them.

Python strings are modelled as Lean `String`s: Python `len` and slicing
count code points, exactly as `String.length` / `List Char` operations do.
External collaborators (the BeautifulSoup-based `extract_review` and the
transformers summarization pipeline) are deterministic opaque functions,
so they enter the model as function parameters.
-/

/-! ### Python string primitives -/

/-- Whitespace characters removed by Python `str.strip()` / `str.rstrip()`
(the ASCII subset, which is all that occurs in this pipeline's data). -/
def pyIsSpace (c : Char) : Bool :=
  c == ' ' || c == '\t' || c == '\n' || c == '\r' || c == '\x0b' || c == '\x0c'

/-- Python `s[:n]`: for `n ≥ 0` the first `n` code points; for `n < 0`
all but the last `-n` code points (clamped at the empty string). -/
def pySliceTo (s : String) (n : Int) : String :=
  if 0 ≤ n then ⟨s.data.take n.toNat⟩
  else ⟨s.data.take ((s.data.length : Int) + n).toNat⟩

/-- Python `s.rstrip()`. -/
def pyRstrip (s : String) : String :=
  ⟨(s.data.reverse.dropWhile pyIsSpace).reverse⟩

/-- Python `s.strip()`. -/
def pyStrip (s : String) : String :=
  ⟨((s.data.dropWhile pyIsSpace).reverse.dropWhile pyIsSpace).reverse⟩

/-! ### The budget summarizer (source lines 122–130)

The summarization pipeline object is an external capability: called on a
prompt and a `max_length`, it either returns summary text or raises.  We
model it as `String → Int → Option String` (`none` = the call raised),
and an unavailable pipeline (`init_summarizer` returned `None`) as the
`Option Capability` being `none`. -/

def Capability : Type := String → Int → Option String

/-- Source lines 122–130:

    if len(raw) <= allowed or summarizer is None:
        summary = raw
    else:
        prompt = f"Summarize in ≤{allowed} chars: {raw}"
        try:
            summary = summarizer(prompt, max_length=allowed, do_sample=False)[0]['summary_text'].strip().replace('\n',' ')
        except Exception:
            summary = raw[:allowed].rstrip() + '...'
-/
def summarize (cap : Option Capability) (raw : String) (allowed : Int) : String :=
  if (raw.length : Int) ≤ allowed ∨ cap.isNone then raw
  else
    match cap with
    | none => raw
    | some f =>
      match f ("Summarize in ≤" ++ toString allowed ++ " chars: " ++ raw) allowed with
      | some s => (pyStrip s).replace "\n" " "
      | none => pyRstrip (pySliceTo raw allowed) ++ "..."

/-- A 200-character input used in concrete scenario checks. -/
def t200 : String := ⟨List.replicate 200 'a'⟩

/-! ### Basic length facts about the primitives -/

theorem pySliceTo_length_le (s : String) (n : Int) (hn : 0 ≤ n) :
    ((pySliceTo s n).length : Int) ≤ n := by
  unfold pySliceTo
  rw [if_pos hn]
  show ((List.take n.toNat s.data).length : Int) ≤ n
  rw [List.length_take]
  omega

theorem dropWhile_length_le {α : Type} (p : α → Bool) (l : List α) :
    (l.dropWhile p).length ≤ l.length := by
  induction l with
  | nil => simp
  | cons a l ih =>
    rw [List.dropWhile_cons]
    split
    · exact Nat.le_succ_of_le ih
    · simp

theorem pyRstrip_length_le (s : String) : (pyRstrip s).length ≤ s.length := by
  unfold pyRstrip
  show (List.reverse (List.dropWhile pyIsSpace s.data.reverse)).length ≤ s.data.length
  rw [List.length_reverse]
  calc (List.dropWhile pyIsSpace s.data.reverse).length
      ≤ s.data.reverse.length := dropWhile_length_le _ _
    _ = s.data.length := List.length_reverse _

/-- A capability whose every call fails: models a summarization pipeline
object whose invocation always raises. -/
def failCap : Capability := fun _ _ => none

/-! ### Claims C1–C3 -/

/-- Claim C3: if the input already fits the budget, the summarizer body
selection returns it unchanged (line 122: `if len(raw) <= allowed ... :
summary = raw`). -/
theorem summarize_noop_of_fits (cap : Option Capability) (t : String) (b : Int)
    (h : (t.length : Int) ≤ b) : summarize cap t b = t := by
  unfold summarize
  rw [if_pos (Or.inl h)]

theorem summarize_noop_of_fits_witness :
    ((("ab" : String).length : Int) ≤ 2) ∧ summarize (some failCap) "ab" 2 = "ab" :=
  ⟨by decide, summarize_noop_of_fits (some failCap) "ab" 2 (by decide)⟩

/-- Claim C1, counterexample: at `t = "aaaa"`, `b = 3` with no summarizer
available, the output has length 4 > 3, so the claimed bound
`len(result) ≤ b` for all `b ≥ 3` is false of the code. -/
theorem summarize_budget_counterexample :
    (3 : Int) ≤ 3 ∧ ¬ (((summarize none "aaaa" 3).length : Int) ≤ 3) := by
  constructor
  · exact le_refl 3
  · decide

/-- Claim C1, amended: the code does not keep the output within the budget.
When the summarizer is absent it passes the raw text through unchanged
(no bound at all), and when the summarizer is present but its call fails,
the truncation fallback truncates to `b` characters and then appends the
3-character ellipsis, so the result is only bounded by `b + 3`. -/
theorem summarize_budget_amended (f : Capability) (hf : ∀ s n, f s n = none)
    (t : String) (b : Int) (hb : 3 ≤ b) :
    summarize none t b = t ∧ ((summarize (some f) t b).length : Int) ≤ b + 3 := by
  constructor
  · unfold summarize
    rw [if_pos (Or.inr Option.isNone_none)]
  · unfold summarize
    by_cases h : (t.length : Int) ≤ b
    · rw [if_pos (Or.inl h)]
      omega
    · have hno : ¬ (((t.length : Int) ≤ b) ∨ ((some f : Option Capability).isNone = true)) := by
        intro h'
        rcases h' with h' | h'
        · exact h h'
        · simp at h'
      rw [if_neg hno]
      show ((match f ("Summarize in ≤" ++ toString b ++ " chars: " ++ t) b with
            | some s => (pyStrip s).replace "\n" " "
            | none => pyRstrip (pySliceTo t b) ++ "...").length : Int) ≤ b + 3
      rw [hf]
      show ((pyRstrip (pySliceTo t b) ++ "...").length : Int) ≤ b + 3
      rw [String.length_append]
      have h1 : ((pySliceTo t b).length : Int) ≤ b := pySliceTo_length_le t b (by omega)
      have h2 : (pyRstrip (pySliceTo t b)).length ≤ (pySliceTo t b).length :=
        pyRstrip_length_le _
      have h3 : ("..." : String).length = 3 := rfl
      push_cast
      omega

theorem summarize_budget_amended_witness :
    (∀ s n, failCap s n = none) ∧ (3 : Int) ≤ 3 ∧
      (summarize none t200 3 = t200 ∧ ((summarize (some failCap) t200 3).length : Int) ≤ 3 + 3) :=
  ⟨fun _ _ => rfl, le_refl 3,
    summarize_budget_amended failCap (fun _ _ => rfl) t200 3 (le_refl 3)⟩

set_option maxRecDepth 8000 in
/-- Claim C2, counterexample: with budget 50, a 200-character input and no
summarizer, the code returns the input unchanged (length 200), not the
claimed 47-character truncation plus ellipsis of total length 50. -/
theorem truncation_scenario_counterexample :
    t200.length = 200 ∧ summarize none t200 50 = t200 ∧
      (summarize none t200 50).length ≠ 50 := by
  refine ⟨by decide, by decide, by decide⟩

/-- Claim C2, amended: with no summarizer the code passes the 200-character
input through unchanged; the first-k-characters-plus-ellipsis shape only
occurs in the fallback taken when a present summarizer's call fails, and
there it truncates to the full budget of 50 characters (trailing
whitespace stripped) before appending the 3-character ellipsis. -/
theorem truncation_scenario_amended (f : Capability) (hf : ∀ s n, f s n = none)
    (t : String) (ht : t.length = 200) :
    summarize none t 50 = t ∧
      summarize (some f) t 50 = pyRstrip (pySliceTo t 50) ++ "..." := by
  constructor
  · unfold summarize
    rw [if_pos (Or.inr Option.isNone_none)]
  · unfold summarize
    have hno : ¬ (((t.length : Int) ≤ 50) ∨ ((some f : Option Capability).isNone = true)) := by
      intro h'
      rcases h' with h' | h'
      · rw [ht] at h'
        omega
      · simp at h'
    rw [if_neg hno]
    show (match f ("Summarize in ≤" ++ toString (50 : Int) ++ " chars: " ++ t) 50 with
          | some s => (pyStrip s).replace "\n" " "
          | none => pyRstrip (pySliceTo t 50) ++ "...") =
        pyRstrip (pySliceTo t 50) ++ "..."
    rw [hf]

set_option maxRecDepth 8000 in
theorem truncation_scenario_amended_witness :
    (∀ s n, failCap s n = none) ∧ t200.length = 200 ∧
      (summarize none t200 50 = t200 ∧
        summarize (some failCap) t200 50 = pyRstrip (pySliceTo t200 50) ++ "...") :=
  ⟨fun _ _ => rfl, by decide,
    truncation_scenario_amended failCap (fun _ _ => rfl) t200 (by decide)⟩

/-! ### Rating parsing and star rendering (source lines 100–105)

`memberRating` arrives as an optional string; the source applies Python
`float()` to it and catches any exception.  Letterboxd ratings are exact
half steps, on which binary floating point is exact, so we model the
value as a rational.  `pyFloat` models `float()` on the plain decimal
strings this feed carries (optional sign, digits, at most one dot,
surrounding whitespace); `float(None)` raises, which is `none` here. -/

def digitsVal (l : List Char) : Nat :=
  l.foldl (fun n c => 10 * n + (c.toNat - 48)) 0

/-- A string `"d₁…dₖ.e₁…eₘ"` parses (after an optional sign) to the exact rational
`±(d·10^m + e) / 10^m`; built with `mkRat` so it evaluates by `decide`. -/
def pyFloat (s : String) : Option Rat :=
  let body := (pyStrip s).data
  let signed : Int × List Char :=
    match body with
    | '-' :: cs => (-1, cs)
    | '+' :: cs => (1, cs)
    | cs => (1, cs)
  match signed.2.splitOn '.' with
  | [a] =>
    if a ≠ [] ∧ a.all Char.isDigit then
      some (mkRat (signed.1 * (digitsVal a : Int)) 1)
    else none
  | [a, b] =>
    if (a ≠ [] ∨ b ≠ []) ∧ a.all Char.isDigit ∧ b.all Char.isDigit then
      some (mkRat (signed.1 * ((digitsVal a * 10 ^ b.length + digitsVal b : Nat) : Int))
        (10 ^ b.length))
    else none
  | _ => none

/-- Python `float(rating)` where `rating` may be `None` (which raises). -/
def parseRatingOpt : Option String → Option Rat
  | none => none
  | some s => pyFloat s

/-- Python `int()` truncates toward zero. -/
def pyInt (q : Rat) : Int :=
  if 0 ≤ q then q.floor else -(-q).floor

/-- Python `val % 1`, i.e. `val - floor(val)`, computed with `mkRat` so it
evaluates by `decide`. -/
def pyMod1 (q : Rat) : Rat :=
  mkRat (q.num - q.floor * (q.den : Int)) q.den

/-- Source lines 103–105: `full = int(val)`, `half = '½' if val % 1 >= 0.5
else ''`, `stars = '★' * full + half`. -/
def starsOf (q : Rat) : String :=
  String.mk (List.replicate (pyInt q).toNat '★') ++
    (if mkRat 1 2 ≤ pyMod1 q then "½" else "")

/-! ### Items and upstream entries (source lines 180–189) -/

/-- The dict built per feed entry in the `__main__` block. -/
structure Item where
  guid : Option String
  filmTitle : Option String
  filmYear : Option String
  memberRating : Option String
  link : Option String
  description : String
  updated : Option String
deriving DecidableEq

/-- A raw feedparser entry, with the fields the `__main__` block reads.
`title` is carried by upstream entries (in the composite form
`"<Title>, <Year> - <StarGlyphs>"`) but the code never reads it. -/
structure RawEntry where
  guid : Option String
  title : Option String
  letterboxd_filmTitle : Option String
  letterboxd_filmtitle : Option String
  letterboxd_filmYear : Option String
  letterboxd_filmyear : Option String
  letterboxd_memberRating : Option String
  letterboxd_memberrating : Option String
  link : Option String
  description : Option String
  updated : Option String
  published : Option String
deriving DecidableEq

/-- Python `a or b` on two optional strings (`None` and `""` are falsy). -/
def pyOr (a b : Option String) : Option String :=
  match a with
  | some s => if s = "" then b else some s
  | none => b

/-- Python `a or d` where `d` is a string default (source lines 98–99). -/
def pyOrDefault (a : Option String) (d : String) : String :=
  match a with
  | some s => if s = "" then d else s
  | none => d

/-- Python f-string interpolation of a possibly-`None` value. -/
def pyOptStr : Option String → String
  | some s => s
  | none => "None"

/-- Source lines 180–189: the dict comprehension normalizing one
feedparser entry. -/
def toItem (e : RawEntry) : Item :=
  { guid := e.guid
    filmTitle := pyOr e.letterboxd_filmTitle e.letterboxd_filmtitle
    filmYear := pyOr e.letterboxd_filmYear e.letterboxd_filmyear
    memberRating := pyOr e.letterboxd_memberRating e.letterboxd_memberrating
    link := e.link
    description := e.description.getD ""
    updated := pyOr e.updated e.published }

/-! ### The feed builder (source lines 92–145) -/

def TW_LIMIT : Int := 280
def TH_LIMIT : Int := 500
def LINK_LEN : Int := 23
def HASHTAG : String := " #FilmReview"
def reviewPre : String := "letterboxd-review-"

/-- Python `s.startswith(pre)`: a character-prefix test. -/
def pyStartsWith (s pre : String) : Bool :=
  pre.data.isPrefixOf s.data

/-- Python `s.lower()` on the ASCII tags used here. -/
def pyLower (s : String) : String :=
  ⟨s.data.map Char.toLower⟩

/-- One emitted Atom entry (the data handed to `fg.add_entry()`). -/
structure FeedEntry where
  guid : String
  entryId : String
  title : String
  link : Option String
  updated : Option String
  content : String
deriving DecidableEq

/-- The outcome of one `build_feed` call: emitted entries in order, the
`processed_ids` set after the call (the function mutates its argument by
adding skip-marks), and the returned `new_ids` set. -/
structure BuildResult where
  entries : List FeedEntry
  processed : Finset String
  newIds : Finset String
deriving DecidableEq

/-- Source lines 118–138: formatting of one accepted record. -/
def mkEntry (ex : String → String) (cap : Option Capability) (limitChars : Int)
    (tag : String) (i : Item) (g : String) (q : Rat) : FeedEntry :=
  let film := pyOrDefault i.filmTitle "Unknown"
  let year := pyOrDefault i.filmYear ""
  let stars := starsOf q
  let raw := ex i.description
  let pfx := "🎥 " ++ film ++ ", " ++ year ++ "\n⭐️ " ++ stars ++ "\n"
  let sfx := "\n🔗 " ++ pyOptStr i.link ++ HASHTAG
  let allowed : Int := limitChars - (pfx.length : Int) - LINK_LEN - (HASHTAG.length : Int) - 1
  { guid := g
    entryId := g ++ "#" ++ pyLower tag
    title := film ++ ", " ++ year ++ " - " ++ stars
    link := i.link
    updated := i.updated
    content := pfx ++ summarize cap raw allowed ++ sfx }

/-- Source lines 92–145: the per-item loop of `build_feed`.  `ex` is the
`extract_review` collaborator (BeautifulSoup-based, deterministic),
applied to `it.get('description','')`. -/
def buildFeed (ex : String → String) (cap : Option Capability) (limitChars : Int)
    (tag : String) : List Item → Finset String → BuildResult
  | [], p => ⟨[], p, ∅⟩
  | i :: rest, p =>
    match i.guid with
    | none => buildFeed ex cap limitChars tag rest p
    | some g =>
      if ¬ pyStartsWith g reviewPre ∨ g ∈ p then
        buildFeed ex cap limitChars tag rest p
      else
        match parseRatingOpt i.memberRating with
        | none => buildFeed ex cap limitChars tag rest (insert g p)
        | some q =>
          if (ex i.description).length < 20 then
            buildFeed ex cap limitChars tag rest (insert g p)
          else
            let r := buildFeed ex cap limitChars tag rest p
            ⟨mkEntry ex cap limitChars tag i g q :: r.entries, r.processed, insert g r.newIds⟩

/-! ### The driver (source lines 192–196) -/

/-- Everything one run produces: the two feeds, the two `new_ids` sets and
the state persisted by `save_cache`. -/
structure RunResult where
  twitter : List FeedEntry
  threads : List FeedEntry
  newTw : Finset String
  newTh : Finset String
  state : Finset String
deriving DecidableEq

/-- Source lines 192–196: the Twitter build runs first on the loaded
state; the Threads build receives the same (now skip-mark-mutated) set;
finally `processed.update(new_tw | new_th)` and `save_cache`. -/
def runPipeline (ex : String → String) (cap : Option Capability)
    (items : List Item) (processed : Finset String) : RunResult :=
  let rTw := buildFeed ex cap TW_LIMIT "Twitter" items processed
  let rTh := buildFeed ex cap TH_LIMIT "Threads" items rTw.processed
  ⟨rTw.entries, rTh.entries, rTw.newIds, rTh.newIds,
    rTh.processed ∪ (rTw.newIds ∪ rTh.newIds)⟩

/-- The driver with the two `build_feed` calls exchanged (the Threads
build now runs first on the loaded state). -/
def runPipelineSwapped (ex : String → String) (cap : Option Capability)
    (items : List Item) (processed : Finset String) : RunResult :=
  let rTh := buildFeed ex cap TH_LIMIT "Threads" items processed
  let rTw := buildFeed ex cap TW_LIMIT "Twitter" items rTh.processed
  ⟨rTw.entries, rTh.entries, rTw.newIds, rTh.newIds,
    rTw.processed ∪ (rTw.newIds ∪ rTh.newIds)⟩

/-- Repeated runs of the pipeline, each starting from the state the
previous run persisted. -/
def multiRun (ex : String → String) (cap : Option Capability) :
    List (List Item) → Finset String → List RunResult
  | [], _ => []
  | items :: rest, s =>
    let r := runPipeline ex cap items s
    r :: multiRun ex cap rest r.state

/-- An item passes every content gate of `build_feed` (review-style guid,
parseable rating, extracted text of at least 20 characters); whether it
is emitted then depends only on the processed set. -/
def emittable (ex : String → String) (i : Item) : Bool :=
  match i.guid with
  | none => false
  | some g =>
    pyStartsWith g reviewPre && (parseRatingOpt i.memberRating).isSome &&
      decide (20 ≤ (ex i.description).length)

/-! ### Step classification for the `build_feed` loop -/

/-- The item falls to the `continue` on line 95 (no guid, wrong naming
convention, or already processed): nothing happens. -/
def skipsGuard (p : Finset String) (i : Item) : Prop :=
  i.guid = none ∨ ∃ g, i.guid = some g ∧ (¬ pyStartsWith g reviewPre ∨ g ∈ p)

/-- The item is skipped with an immediate skip-mark (invalid rating,
line 108, or extracted text under 20 characters, line 115). -/
def marksAt (ex : String → String) (p : Finset String) (i : Item) (g : String) : Prop :=
  i.guid = some g ∧ pyStartsWith g reviewPre ∧ g ∉ p ∧
    (parseRatingOpt i.memberRating = none ∨ (ex i.description).length < 20)

/-- The item is accepted and emitted with rating value `q`. -/
def emitsAt (ex : String → String) (p : Finset String) (i : Item) (g : String) (q : Rat) : Prop :=
  i.guid = some g ∧ pyStartsWith g reviewPre ∧ g ∉ p ∧
    parseRatingOpt i.memberRating = some q ∧ ¬ (ex i.description).length < 20

theorem buildFeed_cons_skip {p : Finset String} {i : Item}
    (ex : String → String) (cap : Option Capability) (lim : Int) (tag : String)
    (rest : List Item) (h : skipsGuard p i) :
    buildFeed ex cap lim tag (i :: rest) p = buildFeed ex cap lim tag rest p := by
  rcases h with h | ⟨g, hg, h⟩
  · simp only [buildFeed, h]
  · simp only [buildFeed, hg]
    rw [if_pos h]

theorem buildFeed_cons_mark {p : Finset String} {i : Item} {g : String}
    (ex : String → String) (cap : Option Capability) (lim : Int) (tag : String)
    (rest : List Item) (h : marksAt ex p i g) :
    buildFeed ex cap lim tag (i :: rest) p = buildFeed ex cap lim tag rest (insert g p) := by
  obtain ⟨hg, hs, hp, hbad⟩ := h
  simp only [buildFeed, hg]
  rw [if_neg (by push_neg; exact ⟨hs, hp⟩)]
  rcases hbad with hbad | hbad
  · simp only [hbad]
  · rcases hr : parseRatingOpt i.memberRating with _ | q
    · simp only [hr]
    · simp only [hr]
      rw [if_pos hbad]

theorem buildFeed_cons_emit {p : Finset String} {i : Item} {g : String} {q : Rat}
    (ex : String → String) (cap : Option Capability) (lim : Int) (tag : String)
    (rest : List Item) (h : emitsAt ex p i g q) :
    buildFeed ex cap lim tag (i :: rest) p =
      ⟨mkEntry ex cap lim tag i g q :: (buildFeed ex cap lim tag rest p).entries,
        (buildFeed ex cap lim tag rest p).processed,
        insert g (buildFeed ex cap lim tag rest p).newIds⟩ := by
  obtain ⟨hg, hs, hp, hq, hlen⟩ := h
  simp only [buildFeed, hg]
  rw [if_neg (by push_neg; exact ⟨hs, hp⟩)]
  simp only [hq]
  rw [if_neg hlen]

/-- Every item falls in exactly one of the three step classes; here we
only need totality. -/
theorem step_cases (ex : String → String) (p : Finset String) (i : Item) :
    skipsGuard p i ∨ (∃ g, marksAt ex p i g) ∨ (∃ g q, emitsAt ex p i g q) := by
  rcases hg : i.guid with _ | g
  · exact Or.inl (Or.inl hg)
  · by_cases hs : pyStartsWith g reviewPre
    · by_cases hp : g ∈ p
      · exact Or.inl (Or.inr ⟨g, hg, Or.inr hp⟩)
      · rcases hr : parseRatingOpt i.memberRating with _ | q
        · exact Or.inr (Or.inl ⟨g, hg, hs, hp, Or.inl hr⟩)
        · by_cases hlen : (ex i.description).length < 20
          · exact Or.inr (Or.inl ⟨g, hg, hs, hp, Or.inr hlen⟩)
          · exact Or.inr (Or.inr ⟨g, q, hg, hs, hp, hr, hlen⟩)
    · exact Or.inl (Or.inr ⟨g, hg, Or.inl hs⟩)

theorem emittable_false_iff (ex : String → String) (i : Item) (g : String)
    (hg : i.guid = some g) (hs : pyStartsWith g reviewPre) :
    emittable ex i = false ↔
      (parseRatingOpt i.memberRating = none ∨ (ex i.description).length < 20) := by
  simp only [emittable, hg, hs, Bool.true_and, Bool.and_eq_false_iff,
    decide_eq_false_iff_not, not_le, Option.not_isSome_iff_eq_none, Bool.not_eq_true]
  rw [← Option.not_isSome_iff_eq_none]
  simp only [Bool.not_eq_true]

/-! ### Invariants of the `build_feed` loop -/

/-- The `processed_ids` set only grows: skip-marks are added, nothing is removed. -/
theorem processed_subset (ex : String → String) (cap : Option Capability) (lim : Int)
    (tag : String) (items : List Item) :
    ∀ p, p ⊆ (buildFeed ex cap lim tag items p).processed := by
  induction items with
  | nil => intro p; exact Finset.Subset.refl p
  | cons i rest ih =>
    intro p
    rcases step_cases ex p i with h | ⟨g, h⟩ | ⟨g, q, h⟩
    · rw [buildFeed_cons_skip ex cap lim tag rest h]
      exact ih p
    · rw [buildFeed_cons_mark ex cap lim tag rest h]
      exact (Finset.subset_insert g p).trans (ih (insert g p))
    · rw [buildFeed_cons_emit ex cap lim tag rest h]
      exact ih p

/-- A guid already in `processed_ids` is never emitted. -/
theorem no_emit_of_mem (ex : String → String) (cap : Option Capability) (lim : Int)
    (tag : String) (items : List Item) :
    ∀ p g, g ∈ p → ∀ e ∈ (buildFeed ex cap lim tag items p).entries, e.guid ≠ g := by
  induction items with
  | nil =>
    intro p g _ e he
    simp only [buildFeed] at he
    exact absurd he (List.not_mem_nil e)
  | cons i rest ih =>
    intro p g hg e he
    rcases step_cases ex p i with h | ⟨g', h⟩ | ⟨g', q, h⟩
    · rw [buildFeed_cons_skip ex cap lim tag rest h] at he
      exact ih p g hg e he
    · rw [buildFeed_cons_mark ex cap lim tag rest h] at he
      exact ih (insert g' p) g (Finset.mem_insert_of_mem hg) e he
    · rw [buildFeed_cons_emit ex cap lim tag rest h] at he
      rcases List.mem_cons.mp he with rfl | he'
      · intro hc
        have hgg : g' = g := hc
        apply h.2.2.1
        rw [hgg]
        exact hg
      · exact ih p g hg e he'

/-- Neither the character limit nor the platform tag influences the
processed set or the accepted-id set. -/
theorem build_state_lim_irrel (ex : String → String) (cap : Option Capability)
    (lim : Int) (tag : String) (lim' : Int) (tag' : String) (items : List Item) :
    ∀ p, (buildFeed ex cap lim tag items p).processed =
        (buildFeed ex cap lim' tag' items p).processed ∧
      (buildFeed ex cap lim tag items p).newIds =
        (buildFeed ex cap lim' tag' items p).newIds := by
  induction items with
  | nil => intro p; exact ⟨rfl, rfl⟩
  | cons i rest ih =>
    intro p
    rcases step_cases ex p i with h | ⟨g, h⟩ | ⟨g, q, h⟩
    · rw [buildFeed_cons_skip ex cap lim tag rest h,
        buildFeed_cons_skip ex cap lim' tag' rest h]
      exact ih p
    · rw [buildFeed_cons_mark ex cap lim tag rest h,
        buildFeed_cons_mark ex cap lim' tag' rest h]
      exact ih (insert g p)
    · rw [buildFeed_cons_emit ex cap lim tag rest h,
        buildFeed_cons_emit ex cap lim' tag' rest h]
      refine ⟨(ih p).1, ?_⟩
      show insert g (buildFeed ex cap lim tag rest p).newIds =
        insert g (buildFeed ex cap lim' tag' rest p).newIds
      rw [(ih p).2]

/-- Every item carrying a review-convention guid ends the build either
skip-marked in `processed_ids` or accepted in `new_ids`. -/
theorem valid_guid_covered (ex : String → String) (cap : Option Capability) (lim : Int)
    (tag : String) (items : List Item) :
    ∀ p i g, i ∈ items → i.guid = some g → pyStartsWith g reviewPre →
      g ∈ (buildFeed ex cap lim tag items p).processed ∨
        g ∈ (buildFeed ex cap lim tag items p).newIds := by
  induction items with
  | nil =>
    intro p i g hi
    exact absurd hi (List.not_mem_nil i)
  | cons j rest ih =>
    intro p i g hi hg hs
    rcases step_cases ex p j with h | ⟨g', h⟩ | ⟨g', q, h⟩
    · rw [buildFeed_cons_skip ex cap lim tag rest h]
      rcases List.mem_cons.mp hi with rfl | hi'
      · rcases h with h | ⟨g'', hg'', h⟩
        · rw [hg] at h
          cases h
        · rw [hg] at hg''
          injection hg'' with h''
          subst h''
          rcases h with h | h
          · exact absurd hs h
          · exact Or.inl (processed_subset ex cap lim tag rest p h)
      · exact ih p i g hi' hg hs
    · rw [buildFeed_cons_mark ex cap lim tag rest h]
      rcases List.mem_cons.mp hi with rfl | hi'
      · obtain ⟨hg', _, _, _⟩ := h
        rw [hg] at hg'
        injection hg' with h''
        subst h''
        exact Or.inl (processed_subset ex cap lim tag rest (insert g p)
          (Finset.mem_insert_self g p))
      · exact ih (insert g' p) i g hi' hg hs
    · rw [buildFeed_cons_emit ex cap lim tag rest h]
      rcases List.mem_cons.mp hi with rfl | hi'
      · obtain ⟨hg', _, _, _, _⟩ := h
        rw [hg] at hg'
        injection hg' with h''
        subst h''
        exact Or.inr (Finset.mem_insert_self g _)
      · rcases ih p i g hi' hg hs with hl | hr
        · exact Or.inl hl
        · exact Or.inr (Finset.mem_insert_of_mem hr)

/-- If every review-convention guid of the input is already processed,
the build is a no-op: no entries, no new ids, untouched state. -/
theorem build_absorbed (ex : String → String) (cap : Option Capability) (lim : Int)
    (tag : String) (items : List Item) :
    ∀ p, (∀ i ∈ items, ∀ g, i.guid = some g → pyStartsWith g reviewPre → g ∈ p) →
      buildFeed ex cap lim tag items p = ⟨[], p, ∅⟩ := by
  induction items with
  | nil => intro p _; rfl
  | cons i rest ih =>
    intro p hcov
    have hskip : skipsGuard p i := by
      rcases hgu : i.guid with _ | g
      · exact Or.inl hgu
      · by_cases hs : pyStartsWith g reviewPre
        · exact Or.inr ⟨g, hgu, Or.inr (hcov i (List.mem_cons_self i rest) g hgu hs)⟩
        · exact Or.inr ⟨g, hgu, Or.inl hs⟩
    rw [buildFeed_cons_skip ex cap lim tag rest hskip]
    exact ih p (fun j hj => hcov j (List.mem_cons_of_mem i hj))

/-- Skip-marks added during a build all come from items that fail a
content gate. -/
theorem marks_from_nonemittable (ex : String → String) (cap : Option Capability)
    (lim : Int) (tag : String) (items : List Item) :
    ∀ p g, g ∈ (buildFeed ex cap lim tag items p).processed → g ∉ p →
      ∃ i ∈ items, i.guid = some g ∧ emittable ex i = false := by
  induction items with
  | nil =>
    intro p g hmem hnp
    exact absurd hmem hnp
  | cons i rest ih =>
    intro p g hmem hnp
    rcases step_cases ex p i with h | ⟨g', h⟩ | ⟨g', q, h⟩
    · rw [buildFeed_cons_skip ex cap lim tag rest h] at hmem
      obtain ⟨j, hj, hgj⟩ := ih p g hmem hnp
      exact ⟨j, List.mem_cons_of_mem i hj, hgj⟩
    · rw [buildFeed_cons_mark ex cap lim tag rest h] at hmem
      by_cases hgg : g = g'
      · subst hgg
        exact ⟨i, List.mem_cons_self i rest, h.1,
          (emittable_false_iff ex i g h.1 h.2.1).mpr h.2.2.2⟩
      · have hni : g ∉ insert g' p := by
          simp only [Finset.mem_insert]
          push_neg
          exact ⟨hgg, hnp⟩
        obtain ⟨j, hj, hgj⟩ := ih (insert g' p) g hmem hni
        exact ⟨j, List.mem_cons_of_mem i hj, hgj⟩
    · rw [buildFeed_cons_emit ex cap lim tag rest h] at hmem
      obtain ⟨j, hj, hgj⟩ := ih p g hmem hnp
      exact ⟨j, List.mem_cons_of_mem i hj, hgj⟩

/-- Every accepted id has a matching emitted entry. -/
theorem newIds_have_entries (ex : String → String) (cap : Option Capability) (lim : Int)
    (tag : String) (items : List Item) :
    ∀ p g, g ∈ (buildFeed ex cap lim tag items p).newIds →
      ∃ e ∈ (buildFeed ex cap lim tag items p).entries, e.guid = g := by
  induction items with
  | nil =>
    intro p g hmem
    exact absurd hmem (Finset.not_mem_empty g)
  | cons i rest ih =>
    intro p g hmem
    rcases step_cases ex p i with h | ⟨g', h⟩ | ⟨g', q, h⟩
    · rw [buildFeed_cons_skip ex cap lim tag rest h] at hmem ⊢
      exact ih p g hmem
    · rw [buildFeed_cons_mark ex cap lim tag rest h] at hmem ⊢
      exact ih (insert g' p) g hmem
    · rw [buildFeed_cons_emit ex cap lim tag rest h] at hmem ⊢
      rcases Finset.mem_insert.mp hmem with rfl | hmem'
      · exact ⟨mkEntry ex cap lim tag i g q, List.mem_cons_self _ _, rfl⟩
      · obtain ⟨e, he, hge⟩ := ih p g hmem'
        exact ⟨e, List.mem_cons_of_mem _ he, hge⟩

/-- Stability: enlarging the starting processed set by guids whose items
all fail a content gate changes neither the emitted entries nor the
accepted ids.  This is exactly the situation of the second `build_feed`
call, which receives the first call's skip-marks. -/
theorem build_stable (ex : String → String) (cap : Option Capability) (lim : Int)
    (tag : String) (items : List Item) :
    ∀ p q : Finset String, p ⊆ q →
      (∀ i ∈ items, ∀ g, i.guid = some g → g ∈ q → g ∉ p → emittable ex i = false) →
      (buildFeed ex cap lim tag items q).entries = (buildFeed ex cap lim tag items p).entries ∧
      (buildFeed ex cap lim tag items q).newIds = (buildFeed ex cap lim tag items p).newIds := by
  induction items with
  | nil => intro p q _ _; exact ⟨rfl, rfl⟩
  | cons i rest ih =>
    intro p q hpq hcond
    have hcond' : ∀ j ∈ rest, ∀ g, j.guid = some g → g ∈ q → g ∉ p → emittable ex j = false :=
      fun j hj => hcond j (List.mem_cons_of_mem i hj)
    rcases hgu : i.guid with _ | g
    · rw [buildFeed_cons_skip ex cap lim tag rest (Or.inl hgu),
        buildFeed_cons_skip ex cap lim tag rest (Or.inl hgu)]
      exact ih p q hpq hcond'
    · by_cases hs : pyStartsWith g reviewPre
      · by_cases hgp : g ∈ p
        · have hgq : g ∈ q := hpq hgp
          rw [buildFeed_cons_skip ex cap lim tag rest (Or.inr ⟨g, hgu, Or.inr hgq⟩),
            buildFeed_cons_skip ex cap lim tag rest (Or.inr ⟨g, hgu, Or.inr hgp⟩)]
          exact ih p q hpq hcond'
        · by_cases hgq : g ∈ q
          · have hem : emittable ex i = false :=
              hcond i (List.mem_cons_self i rest) g hgu hgq hgp
            have hbad := (emittable_false_iff ex i g hgu hs).mp hem
            rw [buildFeed_cons_skip ex cap lim tag rest (Or.inr ⟨g, hgu, Or.inr hgq⟩),
              buildFeed_cons_mark ex cap lim tag rest ⟨hgu, hs, hgp, hbad⟩]
            apply ih (insert g p) q (Finset.insert_subset hgq hpq)
            intro j hj g' hj' hg'q hg'np
            have hg'p : g' ∉ p := fun hc => hg'np (Finset.mem_insert_of_mem hc)
            exact hcond j (List.mem_cons_of_mem i hj) g' hj' hg'q hg'p
          · rcases hr : parseRatingOpt i.memberRating with _ | v
            · rw [buildFeed_cons_mark ex cap lim tag rest ⟨hgu, hs, hgq, Or.inl hr⟩,
                buildFeed_cons_mark ex cap lim tag rest ⟨hgu, hs, hgp, Or.inl hr⟩]
              apply ih (insert g p) (insert g q) (Finset.insert_subset_insert g hpq)
              intro j hj g' hj' hg'q hg'np
              have hg'ne : g' ≠ g := by
                intro hc
                subst hc
                exact hg'np (Finset.mem_insert_self g' p)
              have h1 : g' ∈ q := by
                rcases Finset.mem_insert.mp hg'q with hc | hc
                · exact absurd hc hg'ne
                · exact hc
              have h2 : g' ∉ p := fun hc => hg'np (Finset.mem_insert_of_mem hc)
              exact hcond j (List.mem_cons_of_mem i hj) g' hj' h1 h2
            · by_cases hlen : (ex i.description).length < 20
              · rw [buildFeed_cons_mark ex cap lim tag rest ⟨hgu, hs, hgq, Or.inr hlen⟩,
                  buildFeed_cons_mark ex cap lim tag rest ⟨hgu, hs, hgp, Or.inr hlen⟩]
                apply ih (insert g p) (insert g q) (Finset.insert_subset_insert g hpq)
                intro j hj g' hj' hg'q hg'np
                have hg'ne : g' ≠ g := by
                  intro hc
                  subst hc
                  exact hg'np (Finset.mem_insert_self g' p)
                have h1 : g' ∈ q := by
                  rcases Finset.mem_insert.mp hg'q with hc | hc
                  · exact absurd hc hg'ne
                  · exact hc
                have h2 : g' ∉ p := fun hc => hg'np (Finset.mem_insert_of_mem hc)
                exact hcond j (List.mem_cons_of_mem i hj) g' hj' h1 h2
              · rw [buildFeed_cons_emit ex cap lim tag rest ⟨hgu, hs, hgq, hr, hlen⟩,
                  buildFeed_cons_emit ex cap lim tag rest ⟨hgu, hs, hgp, hr, hlen⟩]
                obtain ⟨he, hn⟩ := ih p q hpq hcond'
                constructor
                · show mkEntry ex cap lim tag i g v :: (buildFeed ex cap lim tag rest q).entries =
                    mkEntry ex cap lim tag i g v :: (buildFeed ex cap lim tag rest p).entries
                  rw [he]
                · show insert g (buildFeed ex cap lim tag rest q).newIds =
                    insert g (buildFeed ex cap lim tag rest p).newIds
                  rw [hn]
      · rw [buildFeed_cons_skip ex cap lim tag rest (Or.inr ⟨g, hgu, Or.inl hs⟩),
          buildFeed_cons_skip ex cap lim tag rest (Or.inr ⟨g, hgu, Or.inl hs⟩)]
        exact ih p q hpq hcond'

/-! ### Driver-level lemmas -/

theorem runPipeline_twitter (ex : String → String) (cap : Option Capability)
    (items : List Item) (p : Finset String) :
    (runPipeline ex cap items p).twitter =
      (buildFeed ex cap TW_LIMIT "Twitter" items p).entries := rfl

theorem runPipeline_threads (ex : String → String) (cap : Option Capability)
    (items : List Item) (p : Finset String) :
    (runPipeline ex cap items p).threads =
      (buildFeed ex cap TH_LIMIT "Threads" items
        (buildFeed ex cap TW_LIMIT "Twitter" items p).processed).entries := rfl

theorem runPipeline_newTw (ex : String → String) (cap : Option Capability)
    (items : List Item) (p : Finset String) :
    (runPipeline ex cap items p).newTw =
      (buildFeed ex cap TW_LIMIT "Twitter" items p).newIds := rfl

theorem runPipeline_state (ex : String → String) (cap : Option Capability)
    (items : List Item) (p : Finset String) :
    (runPipeline ex cap items p).state =
      (buildFeed ex cap TH_LIMIT "Threads" items
          (buildFeed ex cap TW_LIMIT "Twitter" items p).processed).processed ∪
        ((buildFeed ex cap TW_LIMIT "Twitter" items p).newIds ∪
          (buildFeed ex cap TH_LIMIT "Threads" items
            (buildFeed ex cap TW_LIMIT "Twitter" items p).processed).newIds) := rfl

theorem runPipelineSwapped_twitter (ex : String → String) (cap : Option Capability)
    (items : List Item) (p : Finset String) :
    (runPipelineSwapped ex cap items p).twitter =
      (buildFeed ex cap TW_LIMIT "Twitter" items
        (buildFeed ex cap TH_LIMIT "Threads" items p).processed).entries := rfl

theorem runPipelineSwapped_threads (ex : String → String) (cap : Option Capability)
    (items : List Item) (p : Finset String) :
    (runPipelineSwapped ex cap items p).threads =
      (buildFeed ex cap TH_LIMIT "Threads" items p).entries := rfl

theorem runPipelineSwapped_state (ex : String → String) (cap : Option Capability)
    (items : List Item) (p : Finset String) :
    (runPipelineSwapped ex cap items p).state =
      (buildFeed ex cap TW_LIMIT "Twitter" items
          (buildFeed ex cap TH_LIMIT "Threads" items p).processed).processed ∪
        ((buildFeed ex cap TW_LIMIT "Twitter" items
            (buildFeed ex cap TH_LIMIT "Threads" items p).processed).newIds ∪
          (buildFeed ex cap TH_LIMIT "Threads" items p).newIds) := rfl

/-- The loaded state survives into the persisted state of the run. -/
theorem run_state_superset (ex : String → String) (cap : Option Capability)
    (items : List Item) (S : Finset String) :
    S ⊆ (runPipeline ex cap items S).state := by
  rw [runPipeline_state]
  intro g hg
  apply Finset.mem_union_left
  exact processed_subset ex cap TH_LIMIT "Threads" items _
    (processed_subset ex cap TW_LIMIT "Twitter" items S hg)

/-- After a run, every review-convention guid of the input is in the
persisted state. -/
theorem run_state_covers (ex : String → String) (cap : Option Capability)
    (items : List Item) (S : Finset String) :
    ∀ i ∈ items, ∀ g, i.guid = some g → pyStartsWith g reviewPre →
      g ∈ (runPipeline ex cap items S).state := by
  intro i hi g hg hs
  rw [runPipeline_state]
  rcases valid_guid_covered ex cap TH_LIMIT "Threads" items
      (buildFeed ex cap TW_LIMIT "Twitter" items S).processed i g hi hg hs with h | h
  · exact Finset.mem_union_left _ h
  · exact Finset.mem_union_right _ (Finset.mem_union_right _ h)

/-- A run whose review guids are all already processed does nothing. -/
theorem run_absorbed (ex : String → String) (cap : Option Capability)
    (items : List Item) (S : Finset String)
    (hcov : ∀ i ∈ items, ∀ g, i.guid = some g → pyStartsWith g reviewPre → g ∈ S) :
    runPipeline ex cap items S = ⟨[], [], ∅, ∅, S⟩ := by
  have h1 : buildFeed ex cap TW_LIMIT "Twitter" items S = ⟨[], S, ∅⟩ :=
    build_absorbed ex cap TW_LIMIT "Twitter" items S hcov
  have h2 : buildFeed ex cap TH_LIMIT "Threads" items S = ⟨[], S, ∅⟩ :=
    build_absorbed ex cap TH_LIMIT "Threads" items S hcov
  simp only [runPipeline, h1, h2]
  simp [Finset.union_empty]

/-- Entries already in the loaded state are emitted on neither platform. -/
theorem run_no_guid (ex : String → String) (cap : Option Capability)
    (items : List Item) (S : Finset String) (g : String) (hg : g ∈ S) :
    (∀ e ∈ (runPipeline ex cap items S).twitter, e.guid ≠ g) ∧
      (∀ e ∈ (runPipeline ex cap items S).threads, e.guid ≠ g) := by
  constructor
  · rw [runPipeline_twitter]
    exact no_emit_of_mem ex cap TW_LIMIT "Twitter" items S g hg
  · rw [runPipeline_threads]
    exact no_emit_of_mem ex cap TH_LIMIT "Threads" items _ g
      (processed_subset ex cap TW_LIMIT "Twitter" items S hg)

/-- Across any number of later runs, a guid present in the state is never
emitted again. -/
theorem multiRun_no_guid (ex : String → String) (cap : Option Capability)
    (plan : List (List Item)) :
    ∀ S g, g ∈ S → ∀ r ∈ multiRun ex cap plan S,
      (∀ e ∈ r.twitter, e.guid ≠ g) ∧ (∀ e ∈ r.threads, e.guid ≠ g) := by
  induction plan with
  | nil =>
    intro S g _ r hr
    simp only [multiRun] at hr
    exact absurd hr (List.not_mem_nil r)
  | cons items rest ih =>
    intro S g hg r hr
    simp only [multiRun] at hr
    rcases List.mem_cons.mp hr with rfl | hr'
    · exact run_no_guid ex cap items S g hg
    · exact ih (runPipeline ex cap items S).state g
        (run_state_superset ex cap items S hg) r hr'

/-! ### Claim C4: no composite-title fallback exists -/

/-- An upstream entry carrying only the composite title (no structured
letterboxd fields), exactly the scenario of the claim. -/
def oldboyEntry : RawEntry :=
  { guid := some "letterboxd-review-oldboy"
    title := some "Oldboy, 2003 - ★★★★½"
    letterboxd_filmTitle := none
    letterboxd_filmtitle := none
    letterboxd_filmYear := none
    letterboxd_filmyear := none
    letterboxd_memberRating := none
    letterboxd_memberrating := none
    link := some "https://letterboxd.com/r/oldboy/"
    description := some "<p>A hammer, a hallway, and fifteen years of waiting.</p>"
    updated := some "2024-01-01"
    published := none }

/-- Claim C4, counterexample: for the entry titled
`"Oldboy, 2003 - ★★★★½"` with no structured fields, the code parses
nothing out of the title: the film defaults to `"Unknown"` (not
`"Oldboy"`), the year to `""`, and the record is skipped outright for its
missing rating, producing no feed entry and a skip-mark instead. -/
theorem title_fallback_counterexample :
    pyOrDefault (toItem oldboyEntry).filmTitle "Unknown" = "Unknown" ∧
      pyOrDefault (toItem oldboyEntry).filmYear "" = "" ∧
      (buildFeed (fun s => s) none TW_LIMIT "Twitter" [toItem oldboyEntry] ∅).entries = [] ∧
      (buildFeed (fun s => s) none TW_LIMIT "Twitter" [toItem oldboyEntry] ∅).processed =
        {"letterboxd-review-oldboy"} := by
  refine ⟨by decide, by decide, by decide, by decide⟩

/-- Claim C4, amended: there is no composite-title parsing fallback.  When
the structured film fields are absent the normalizer leaves them empty, so
the builder renders the film as `"Unknown"` and the year empty, and the
absent rating makes `float()` raise, skipping the record and marking its
identity processed. -/
theorem no_composite_title_fallback (e : RawEntry)
    (h1 : e.letterboxd_filmTitle = none) (h2 : e.letterboxd_filmtitle = none)
    (h3 : e.letterboxd_filmYear = none) (h4 : e.letterboxd_filmyear = none)
    (h5 : e.letterboxd_memberRating = none) (h6 : e.letterboxd_memberrating = none)
    (ex : String → String) (cap : Option Capability) (lim : Int) (tag : String)
    (rest : List Item) (p : Finset String) (g : String)
    (hg : e.guid = some g) (hs : pyStartsWith g reviewPre) (hp : g ∉ p) :
    pyOrDefault (toItem e).filmTitle "Unknown" = "Unknown" ∧
      pyOrDefault (toItem e).filmYear "" = "" ∧
      parseRatingOpt (toItem e).memberRating = none ∧
      buildFeed ex cap lim tag (toItem e :: rest) p =
        buildFeed ex cap lim tag rest (insert g p) := by
  have hft : (toItem e).filmTitle = none := by simp [toItem, h1, h2, pyOr]
  have hfy : (toItem e).filmYear = none := by simp [toItem, h3, h4, pyOr]
  have hmr : (toItem e).memberRating = none := by simp [toItem, h5, h6, pyOr]
  have hgu : (toItem e).guid = some g := by simp [toItem, hg]
  refine ⟨by rw [hft]; rfl, by rw [hfy]; rfl, by rw [hmr]; rfl, ?_⟩
  exact buildFeed_cons_mark ex cap lim tag rest ⟨hgu, hs, hp, Or.inl (by rw [hmr]; rfl)⟩

theorem no_composite_title_fallback_witness :
    (oldboyEntry.letterboxd_filmTitle = none ∧ oldboyEntry.letterboxd_memberRating = none ∧
        oldboyEntry.guid = some "letterboxd-review-oldboy" ∧
        pyStartsWith "letterboxd-review-oldboy" reviewPre = true) ∧
      (pyOrDefault (toItem oldboyEntry).filmTitle "Unknown" = "Unknown" ∧
        pyOrDefault (toItem oldboyEntry).filmYear "" = "" ∧
        parseRatingOpt (toItem oldboyEntry).memberRating = none ∧
        buildFeed (fun s => s) none TW_LIMIT "Twitter" [toItem oldboyEntry] ∅ =
          buildFeed (fun s => s) none TW_LIMIT "Twitter" []
            (insert "letterboxd-review-oldboy" ∅)) :=
  ⟨⟨rfl, rfl, rfl, by decide⟩,
    no_composite_title_fallback oldboyEntry rfl rfl rfl rfl rfl rfl
      (fun s => s) none TW_LIMIT "Twitter" [] ∅ "letterboxd-review-oldboy"
      rfl (by decide) (by decide)⟩

/-! ### Claim C5: idempotence across runs -/

/-- Claim C5: a second run on identical upstream items, starting from the
state the first run persisted, emits nothing on either platform, accepts
nothing, and persists the same state set again. -/
theorem pipeline_idempotent (ex : String → String) (cap : Option Capability)
    (items : List Item) (S : Finset String) :
    runPipeline ex cap items (runPipeline ex cap items S).state =
      ⟨[], [], ∅, ∅, (runPipeline ex cap items S).state⟩ :=
  run_absorbed ex cap items (runPipeline ex cap items S).state
    (run_state_covers ex cap items S)

/-! ### Claim C7: non-review guids are discarded without trace -/

/-- Claim C7: an item whose guid is absent or does not start with
`letterboxd-review-` contributes nothing: the build over the list with
the item equals the build over the list without it, so no entry, no
skip-mark and no accepted id can trace back to it. -/
theorem invalid_guid_discarded (ex : String → String) (cap : Option Capability)
    (lim : Int) (tag : String) (i : Item) (rest : List Item) (p : Finset String)
    (h : i.guid = none ∨ ∃ g, i.guid = some g ∧ pyStartsWith g reviewPre = false) :
    buildFeed ex cap lim tag (i :: rest) p = buildFeed ex cap lim tag rest p := by
  apply buildFeed_cons_skip
  rcases h with h | ⟨g, hg, hs⟩
  · exact Or.inl h
  · exact Or.inr ⟨g, hg, Or.inl (by simp [hs])⟩

/-- A raw item whose guid does not follow the review naming convention. -/
def itemNotReview : Item :=
  { guid := some "letterboxd-watchlist-42"
    filmTitle := some "Film"
    filmYear := some "2001"
    memberRating := some "4.0"
    link := some "https://l/"
    description := "A perfectly reasonable description."
    updated := some "2024-02-02" }

theorem invalid_guid_discarded_witness :
    (itemNotReview.guid = none ∨
        ∃ g, itemNotReview.guid = some g ∧ pyStartsWith g reviewPre = false) ∧
      buildFeed (fun s => s) none TW_LIMIT "Twitter" [itemNotReview] ∅ =
        buildFeed (fun s => s) none TW_LIMIT "Twitter" [] ∅ :=
  ⟨Or.inr ⟨"letterboxd-watchlist-42", rfl, by decide⟩,
    invalid_guid_discarded (fun s => s) none TW_LIMIT "Twitter" itemNotReview [] ∅
      (Or.inr ⟨"letterboxd-watchlist-42", rfl, by decide⟩)⟩

/-! ### Claim C9: the state only grows -/

/-- Claim C9: nothing is ever removed from the processed set during a run,
so the persisted state is a superset of the loaded one. -/
theorem state_monotone_across_run (ex : String → String) (cap : Option Capability)
    (items : List Item) (S : Finset String) :
    S ⊆ (runPipeline ex cap items S).state :=
  run_state_superset ex cap items S

/-! ### Claim C6: skip-marks are immediate and permanent -/

/-- Claim C6: a record with a review guid not yet processed whose rating
is invalid or whose extracted body is under 20 characters is skipped with
its identity inserted into the processed set at that very step; and once
an identity is in the persisted state, no entry for it appears in either
platform feed of any later run, however many runs execute. -/
theorem skip_marked_never_reappears (ex : String → String) (cap : Option Capability)
    (lim : Int) (tag : String) (i : Item) (rest : List Item) (p : Finset String)
    (g : String) (hg : i.guid = some g) (hs : pyStartsWith g reviewPre) (hp : g ∉ p)
    (hbad : parseRatingOpt i.memberRating = none ∨ (ex i.description).length < 20)
    (S : Finset String) (hS : g ∈ S) (plan : List (List Item)) :
    buildFeed ex cap lim tag (i :: rest) p = buildFeed ex cap lim tag rest (insert g p) ∧
      ∀ r ∈ multiRun ex cap plan S,
        (∀ e ∈ r.twitter, e.guid ≠ g) ∧ (∀ e ∈ r.threads, e.guid ≠ g) :=
  ⟨buildFeed_cons_mark ex cap lim tag rest ⟨hg, hs, hp, hbad⟩,
    fun r hr => multiRun_no_guid ex cap plan S g hS r hr⟩

/-- An item with a review guid but an unparseable rating string. -/
def itemBadRating : Item :=
  { guid := some "letterboxd-review-bad"
    filmTitle := some "Film"
    filmYear := some "2000"
    memberRating := some "abc"
    link := some "https://l/"
    description := "This description is long enough to pass."
    updated := some "2024-03-03" }

theorem skip_marked_never_reappears_witness :
    (itemBadRating.guid = some "letterboxd-review-bad" ∧
        pyStartsWith "letterboxd-review-bad" reviewPre = true ∧
        parseRatingOpt itemBadRating.memberRating = none ∧
        "letterboxd-review-bad" ∈ ({"letterboxd-review-bad"} : Finset String)) ∧
      (buildFeed (fun s => s) none TW_LIMIT "Twitter" [itemBadRating] ∅ =
          buildFeed (fun s => s) none TW_LIMIT "Twitter" []
            (insert "letterboxd-review-bad" ∅) ∧
        ∀ r ∈ multiRun (fun s => s) none [[itemBadRating]] {"letterboxd-review-bad"},
          (∀ e ∈ r.twitter, e.guid ≠ "letterboxd-review-bad") ∧
            (∀ e ∈ r.threads, e.guid ≠ "letterboxd-review-bad")) :=
  ⟨⟨rfl, by decide, by decide, by decide⟩,
    skip_marked_never_reappears (fun s => s) none TW_LIMIT "Twitter" itemBadRating [] ∅
      "letterboxd-review-bad" rfl (by decide) (by decide) (Or.inl (by decide))
      {"letterboxd-review-bad"} (by decide) [[itemBadRating]]⟩

/-! ### Claims C8 and C10: the two builds share the mutated state -/

/-- An item that passes every gate. -/
def itemDupGood : Item :=
  { guid := some "letterboxd-review-dup"
    filmTitle := some "Film"
    filmYear := some "2001"
    memberRating := some "4.5"
    link := some "https://l/"
    description := "A sufficiently long review body."
    updated := some "2024-04-04" }

/-- A later item reusing the same guid with a broken rating: its skip-mark
lands in the shared set during the first build and suppresses the guid in
the second build. -/
def itemDupBad : Item :=
  { guid := some "letterboxd-review-dup"
    filmTitle := some "Film"
    filmYear := some "2001"
    memberRating := some "oops"
    link := some "https://l/"
    description := "A sufficiently long review body."
    updated := some "2024-04-05" }

def dupItems : List Item := [itemDupGood, itemDupBad]

/-- Claim C8, counterexample: on `dupItems` the Threads feed is empty when
it is built second but non-empty when the build order is swapped, so the
two build phases are not order-insensitive and do not observe the same
pre-build snapshot: the first build's skip-mark for the duplicated guid
suppresses the accepted item in the second build. -/
theorem build_order_counterexample :
    (runPipeline (fun s => s) none dupItems ∅).threads = [] ∧
      (runPipelineSwapped (fun s => s) none dupItems ∅).threads ≠ [] := by
  refine ⟨by decide, by decide⟩

/-- Claim C10, counterexample: in a single run on `dupItems`, the identity
of the accepted item is in the Twitter build's `new_ids`, yet the Threads
build emits nothing, so acceptance by the first platform does not imply
re-emission by the second. -/
theorem cross_platform_dedup_counterexample :
    "letterboxd-review-dup" ∈ (runPipeline (fun s => s) none dupItems ∅).newTw ∧
      (runPipeline (fun s => s) none dupItems ∅).threads = [] := by
  refine ⟨by decide, by decide⟩

/-- Claim C8, amended: the two builds share one mutated processed set, not
a snapshot.  The final merged state is the same in both orders
unconditionally, for every input; the sharing is observable only through
the feeds, via items that reuse a guid with different gate outcomes, so
whenever items sharing a guid agree on the content gates — in particular
whenever guids are pairwise distinct — swapping the two `build_feed`
calls changes neither feed either. -/
theorem build_order_amended (ex : String → String) (cap : Option Capability)
    (items : List Item) (p : Finset String) :
    (runPipelineSwapped ex cap items p).state = (runPipeline ex cap items p).state ∧
      ((∀ i ∈ items, ∀ j ∈ items, i.guid.isSome → i.guid = j.guid →
          emittable ex i = emittable ex j) →
        (runPipelineSwapped ex cap items p).twitter = (runPipeline ex cap items p).twitter ∧
          (runPipelineSwapped ex cap items p).threads = (runPipeline ex cap items p).threads) := by
  have hirr := build_state_lim_irrel ex cap TH_LIMIT "Threads" TW_LIMIT "Twitter" items
  have hPeq : (buildFeed ex cap TH_LIMIT "Threads" items p).processed =
      (buildFeed ex cap TW_LIMIT "Twitter" items p).processed := (hirr p).1
  have hNeq0 : (buildFeed ex cap TH_LIMIT "Threads" items p).newIds =
      (buildFeed ex cap TW_LIMIT "Twitter" items p).newIds := (hirr p).2
  have hPP := (hirr (buildFeed ex cap TW_LIMIT "Twitter" items p).processed).1
  have hNN := (hirr (buildFeed ex cap TW_LIMIT "Twitter" items p).processed).2
  constructor
  · rw [runPipelineSwapped_state, runPipeline_state, hPeq, hNeq0, hPP, hNN,
      Finset.union_comm ((buildFeed ex cap TW_LIMIT "Twitter" items
        (buildFeed ex cap TW_LIMIT "Twitter" items p).processed).newIds)
      ((buildFeed ex cap TW_LIMIT "Twitter" items p).newIds)]
  · intro hagree
    have hsub : p ⊆ (buildFeed ex cap TW_LIMIT "Twitter" items p).processed :=
      processed_subset ex cap TW_LIMIT "Twitter" items p
    have hcond : ∀ i ∈ items, ∀ g, i.guid = some g →
        g ∈ (buildFeed ex cap TW_LIMIT "Twitter" items p).processed → g ∉ p →
        emittable ex i = false := by
      intro i hi g hg hmem hnp
      obtain ⟨j, hj, hgj, hje⟩ :=
        marks_from_nonemittable ex cap TW_LIMIT "Twitter" items p g hmem hnp
      have heq := hagree i hi j hj (by rw [hg]; rfl) (by rw [hg, hgj])
      rw [heq]
      exact hje
    have hstabTH := build_stable ex cap TH_LIMIT "Threads" items p
      (buildFeed ex cap TW_LIMIT "Twitter" items p).processed hsub hcond
    have hstabTW := build_stable ex cap TW_LIMIT "Twitter" items p
      (buildFeed ex cap TW_LIMIT "Twitter" items p).processed hsub hcond
    constructor
    · rw [runPipelineSwapped_twitter, runPipeline_twitter, hPeq]
      exact hstabTW.1
    · rw [runPipelineSwapped_threads, runPipeline_threads]
      exact hstabTH.1.symm

/-- A second all-gates-passing item with a distinct guid. -/
def itemOther : Item :=
  { guid := some "letterboxd-review-two"
    filmTitle := some "Other"
    filmYear := some "1999"
    memberRating := some "3.0"
    link := some "https://o/"
    description := "Another review body long enough too."
    updated := some "2024-05-05" }

def okItems : List Item := [itemDupGood, itemOther]

theorem build_order_amended_witness :
    (∀ i ∈ okItems, ∀ j ∈ okItems, i.guid.isSome → i.guid = j.guid →
        emittable (fun s => s) i = emittable (fun s => s) j) ∧
      (runPipelineSwapped (fun s => s) none okItems ∅).state =
        (runPipeline (fun s => s) none okItems ∅).state ∧
      (runPipelineSwapped (fun s => s) none okItems ∅).twitter =
        (runPipeline (fun s => s) none okItems ∅).twitter ∧
      (runPipelineSwapped (fun s => s) none okItems ∅).threads =
        (runPipeline (fun s => s) none okItems ∅).threads :=
  ⟨by decide,
    (build_order_amended (fun s => s) none okItems ∅).1,
    ((build_order_amended (fun s => s) none okItems ∅).2 (by decide)).1,
    ((build_order_amended (fun s => s) none okItems ∅).2 (by decide)).2⟩

/-- Claim C10, amended: provided items sharing a guid agree on the content
gates (in particular when guids are pairwise distinct), every identity the
first platform's build accepts is emitted again by the second platform's
build of the same run, because accepted ids enter the shared set only
after both builds. -/
theorem accepted_reemitted_second_build (ex : String → String) (cap : Option Capability)
    (items : List Item) (p : Finset String)
    (hagree : ∀ i ∈ items, ∀ j ∈ items, i.guid.isSome → i.guid = j.guid →
      emittable ex i = emittable ex j)
    (g : String) (hg : g ∈ (runPipeline ex cap items p).newTw) :
    ∃ e ∈ (runPipeline ex cap items p).threads, e.guid = g := by
  rw [runPipeline_newTw] at hg
  rw [runPipeline_threads]
  have hsub : p ⊆ (buildFeed ex cap TW_LIMIT "Twitter" items p).processed :=
    processed_subset ex cap TW_LIMIT "Twitter" items p
  have hcond : ∀ i ∈ items, ∀ g', i.guid = some g' →
      g' ∈ (buildFeed ex cap TW_LIMIT "Twitter" items p).processed → g' ∉ p →
      emittable ex i = false := by
    intro i hi g' hg' hmem hnp
    obtain ⟨j, hj, hgj, hje⟩ :=
      marks_from_nonemittable ex cap TW_LIMIT "Twitter" items p g' hmem hnp
    have heq := hagree i hi j hj (by rw [hg']; rfl) (by rw [hg', hgj])
    rw [heq]
    exact hje
  have hstabTH := build_stable ex cap TH_LIMIT "Threads" items p
    (buildFeed ex cap TW_LIMIT "Twitter" items p).processed hsub hcond
  rw [hstabTH.1]
  have hN := (build_state_lim_irrel ex cap TW_LIMIT "Twitter" TH_LIMIT "Threads" items p).2
  rw [hN] at hg
  exact newIds_have_entries ex cap TH_LIMIT "Threads" items p g hg

theorem accepted_reemitted_second_build_witness :
    (∀ i ∈ okItems, ∀ j ∈ okItems, i.guid.isSome → i.guid = j.guid →
        emittable (fun s => s) i = emittable (fun s => s) j) ∧
      ("letterboxd-review-dup" ∈ (runPipeline (fun s => s) none okItems ∅).newTw) ∧
      ∃ e ∈ (runPipeline (fun s => s) none okItems ∅).threads,
        e.guid = "letterboxd-review-dup" :=
  ⟨by decide, by decide,
    accepted_reemitted_second_build (fun s => s) none okItems ∅ (by decide)
      "letterboxd-review-dup" (by decide)⟩
